import Mathlib

/-!
Verification of the Fashion Studio ETL pipeline
(`utils/extract.py`, `utils/transform.py`, `utils/load.py`, `main.py`).

The embedding is shallow:
* a pandas cell is a `Cell` (null / string / float / int); strings are
  modelled as their character lists, floats as exact rationals;
* a DataFrame row is a `Row`, a DataFrame a `List Row`;
* each `clean_*` normalizer is translated from the source, including the
  leftmost-match semantics of the `re.search` calls it makes (Python's `.`
  is modelled as "any character"; the catalog text contains no newlines)
  and the `TypeError → except → None` behaviour on non-string input;
* the HTTP layer of `extract.py` is a deterministic map from URLs to
  page contents, and the destination writers of `load.py` (external
  collaborators per the spec) are boolean outcome parameters.
-/

/-- A pandas cell as seen by the transform code: missing value (`None`/NaN),
a Python `str` (modelled as its character list), a Python `float`
(modelled as an exact rational), or a Python `int`. -/
inductive Cell where
  | null : Cell
  | str : List Char → Cell
  | num : ℚ → Cell
  | int : ℤ → Cell
deriving DecidableEq

/-- One DataFrame row with the columns produced by `scrape_page`:
`Title`, `Price`, `Rating`, `Colors`, `Size`, `Gender`, `timestamp`.
The timestamp column is never parsed by the pipeline, so it stays a plain
string. -/
structure Row where
  title : Cell
  price : Cell
  rating : Cell
  colors : Cell
  size : Cell
  gender : Cell
  timestamp : String
deriving DecidableEq

/-- The string literal `"Unknown Product"` from `transform.py`. -/
def unknownLit : List Char :=
  ['U', 'n', 'k', 'n', 'o', 'w', 'n', ' ', 'P', 'r', 'o', 'd', 'u', 'c', 't']

/-- The string literal `"Price Unavailable"` from `clean_price`. -/
def priceUnavailableLit : List Char :=
  ['P', 'r', 'i', 'c', 'e', ' ', 'U', 'n', 'a', 'v', 'a', 'i', 'l', 'a', 'b', 'l', 'e']

/-- The string literal `"Unavailable"` from `clean_price`. -/
def unavailableLit : List Char :=
  ['U', 'n', 'a', 'v', 'a', 'i', 'l', 'a', 'b', 'l', 'e']

/-- The regex literal `Colors` from `clean_colors`. -/
def colorsLit : List Char := ['C', 'o', 'l', 'o', 'r', 's']

/-- The regex literal `Size:` from `clean_size`. -/
def sizeLit : List Char := ['S', 'i', 'z', 'e', ':']

/-- The regex literal `Gender:` from `clean_gender`. -/
def genderLit : List Char := ['G', 'e', 'n', 'd', 'e', 'r', ':']

/-- ASCII whitespace matched by Python's `\s` and stripped by `str.strip()`
(the exotic Unicode space characters never occur in the catalog text). -/
def isPySpace (c : Char) : Bool :=
  c = ' ' || c = '\t' || c = '\n' || c = '\r' || c = '\x0b' || c = '\x0c'

/-- Drop the maximal whitespace run, i.e. what a greedy `\s*` consumes. -/
def spaceDrop (l : List Char) : List Char := l.dropWhile isPySpace

/-- Python `str.strip()`: remove leading and trailing whitespace. -/
def pyStrip (l : List Char) : List Char :=
  spaceDrop ((spaceDrop l.reverse).reverse)

/-- Split off the maximal digit run (what a greedy `\d+` consumes):
returns the run and the remaining suffix. -/
def digitRun : List Char → List Char × List Char
  | [] => ([], [])
  | c :: cs =>
    if c.isDigit then
      let p := digitRun cs
      (c :: p.1, p.2)
    else ([], c :: cs)

/-- Decimal value of a digit run, as produced by Python `int`/`float`. -/
def digitsVal (ds : List Char) : ℕ :=
  ds.foldl (fun a c => 10 * a + (c.toNat - 48)) 0

/-- Value of the decimal numeral `d1.d2` (Python `float("<d1>.<d2>")`),
taken exactly. -/
def numLit (d1 d2 : List Char) : ℚ :=
  (digitsVal d1 : ℚ) + (digitsVal d2 : ℚ) / (10 : ℚ) ^ d2.length

/-- Group 1 of a successful match of `\$?(\d+\.\d+|\d+)` whose group starts
at the head of the list (which is a digit): the alternative `\d+\.\d+` is
tried first and succeeds only if the maximal digit run is followed by a dot
and at least one further digit, else the match falls back to `\d+`. -/
def numVal : List Char × List Char → ℚ
  | (d1, '.' :: r2) =>
    if (digitRun r2).1 = [] then (digitsVal d1 : ℚ) else numLit d1 (digitRun r2).1
  | (d1, _) => (digitsVal d1 : ℚ)

/-- `re.search(r'\$?(\d+\.\d+|\d+)', s)`: scan left to right for the first
digit (a `$` immediately before it only widens the match, not the group)
and parse the numeral found there. Returns the parsed group, or `none`
when the string has no digit. -/
def priceScan : List Char → Option ℚ
  | [] => none
  | c :: cs =>
    if c.isDigit then some (numVal (digitRun (c :: cs)))
    else priceScan cs

/-- `clean_price` from `transform.py`: `None` for missing input and the
literals `"Price Unavailable"`/`"Unavailable"`; for a string, the first
numeral times the fixed exchange rate 16000; for non-string input the
`re.search` call raises `TypeError`, which the `except` clause turns into
`None`. -/
def clean_price : Cell → Option ℚ
  | Cell.null => none
  | Cell.num _ => none
  | Cell.int _ => none
  | Cell.str s =>
    if s = priceUnavailableLit ∨ s = unavailableLit then none
    else (priceScan s).map (fun q => q * 16000)

/-- Match of `\s*\/\s*5` at the front of the list, as required after the
numeral group of `clean_rating`'s regex: a greedy `\s*` is deterministic
here because `/` and `5` are not whitespace. -/
def ratingSuffix (l : List Char) : Bool :=
  match spaceDrop l with
  | '/' :: r =>
    match spaceDrop r with
    | '5' :: _ => true
    | _ => false
  | _ => false

/-- `re.search(r'(\d+\.\d+|\d+)\s*\/\s*5', s)`: scan left to right; at each
digit take the maximal numeral (trying `\d+\.\d+` before `\d+`, exactly as
the alternation does — shortening a digit run can never help because the
next pattern character is never a digit) and accept it when `\s*\/\s*5`
follows; otherwise resume the scan one character further. -/
def ratingScan : List Char → Option ℚ
  | [] => none
  | c :: cs =>
    if c.isDigit then
      match digitRun (c :: cs) with
      | (d1, '.' :: r2) =>
        if (digitRun r2).1 ≠ [] ∧ ratingSuffix (digitRun r2).2 then
          some (numLit d1 (digitRun r2).1)
        else ratingScan cs
      | (d1, r1) => if ratingSuffix r1 then some ((digitsVal d1 : ℚ)) else ratingScan cs
    else ratingScan cs

/-- `clean_rating` from `transform.py`: `None` on missing input; else the
numeral of the first `<number> / 5` pattern; the `"Invalid Rating"` and
`"Not Rated"` branches of the source also return `None`, as does the
no-match branch, so a failed search is `none`; non-string input raises
`TypeError` inside `re.search`, caught to `None`. -/
def clean_rating : Cell → Option ℚ
  | Cell.null => none
  | Cell.num _ => none
  | Cell.int _ => none
  | Cell.str s => ratingScan s

/-- Does `needle` start the list?  (`List` analogue of `startswith`.) -/
def leadsWith : List Char → List Char → Bool
  | [], _ => true
  | _ :: _, [] => false
  | a :: as, b :: bs => a = b && leadsWith as bs

/-- `re.search(r'(\d+)\s*Colors', s)`: scan left to right; at each digit
take the maximal run and accept it when optional whitespace and the literal
`Colors` follow; otherwise resume one character further. -/
def colorsScan : List Char → Option ℤ
  | [] => none
  | c :: cs =>
    if c.isDigit then
      if leadsWith colorsLit (spaceDrop (digitRun (c :: cs)).2) then
        some ((digitsVal (digitRun (c :: cs)).1 : ℤ))
      else colorsScan cs
    else colorsScan cs

/-- `clean_colors` from `transform.py`: `None` on missing input, the
matched count as a Python `int` otherwise; non-string input raises
`TypeError` inside `re.search`, caught to `None`. -/
def clean_colors : Cell → Option ℤ
  | Cell.null => none
  | Cell.num _ => none
  | Cell.int _ => none
  | Cell.str s => colorsScan s

/-- The suffix after the first occurrence of `label` in the list, `none`
when `label` does not occur.  This is where `re.search(label + ...)`
anchors its match: at the leftmost occurrence of the literal label. -/
def findLabel (label : List Char) : List Char → Option (List Char)
  | [] => none
  | c :: cs =>
    if leadsWith label (c :: cs) then some ((c :: cs).drop label.length)
    else findLabel label cs

/-- `re.search(r'Size:\s*(.+)', size).group(1).strip()` from `clean_size`:
the match anchors at the first occurrence of `Size:`; `\s*(.+)` needs at
least one character after the label (else there is no match — and a later
occurrence cannot exist when the first one ends the string); the group is
the rest of the line minus a whitespace prefix, and `.strip()` then removes
all surrounding whitespace, so the result is the stripped suffix. -/
def labelStrip (label : List Char) (s : List Char) : Option (List Char) :=
  match findLabel label s with
  | none => none
  | some rest => if rest = [] then none else some (pyStrip rest)

/-- `clean_size` from `transform.py`: `None` on missing input, else the
text after the (first) `Size:` label, stripped; `None` when the label is
absent; non-string input raises `TypeError` inside `re.search`, caught to
`None`. -/
def clean_size : Cell → Option (List Char)
  | Cell.null => none
  | Cell.num _ => none
  | Cell.int _ => none
  | Cell.str s => labelStrip sizeLit s

/-- `clean_gender` from `transform.py`: as `clean_size` with the
`Gender:` label. -/
def clean_gender : Cell → Option (List Char)
  | Cell.null => none
  | Cell.num _ => none
  | Cell.int _ => none
  | Cell.str s => labelStrip genderLit s

/-- Embed an optional float back into a cell, as `Series.apply` stores a
`float`-or-`None` result. -/
def optNum : Option ℚ → Cell
  | none => Cell.null
  | some q => Cell.num q

/-- Embed an optional int back into a cell. -/
def optInt : Option ℤ → Cell
  | none => Cell.null
  | some n => Cell.int n

/-- Embed an optional string back into a cell. -/
def optStr : Option (List Char) → Cell
  | none => Cell.null
  | some s => Cell.str s

/-- The five `df_clean[col] = df_clean[col].apply(clean_col)` assignments
of `transform_data`: normalize the five business columns of one row.
`Title` and `timestamp` are left untouched. -/
def cleanRow (r : Row) : Row :=
  { r with
    price := optNum (clean_price r.price)
    rating := optNum (clean_rating r.rating)
    colors := optInt (clean_colors r.colors)
    size := optStr (clean_size r.size)
    gender := optStr (clean_gender r.gender) }

/-- `df_clean[df_clean['Title'] != "Unknown Product"]`: the filter keeps a
row unless its title cell equals the string `"Unknown Product"` (a null or
numeric cell compares unequal to a string in pandas and is kept here). -/
def notUnknown (r : Row) : Bool := decide (r.title ≠ Cell.str unknownLit)

/-- `dropna(subset=['Title','Price','Rating','Colors','Size','Gender'])`:
keep a row iff none of the six business cells is missing. -/
def hasNoNull (r : Row) : Bool :=
  decide (r.title ≠ Cell.null ∧ r.price ≠ Cell.null ∧ r.rating ≠ Cell.null ∧
    r.colors ≠ Cell.null ∧ r.size ≠ Cell.null ∧ r.gender ≠ Cell.null)

/-- The six business fields, the subset `drop_duplicates` compares on
(`timestamp` excluded). -/
structure Key where
  title : Cell
  price : Cell
  rating : Cell
  colors : Cell
  size : Cell
  gender : Cell
deriving DecidableEq

/-- Project a row to its duplicate-detection key. -/
def businessKey (r : Row) : Key :=
  ⟨r.title, r.price, r.rating, r.colors, r.size, r.gender⟩

/-- `drop_duplicates(subset=[...])` with the default `keep='first'`:
keep a row iff its key was not seen earlier in the list. -/
def dedupRows : List Row → List Key → List Row
  | [], _ => []
  | r :: rs, seen =>
    if businessKey r ∈ seen then dedupRows rs seen
    else r :: dedupRows rs (businessKey r :: seen)

/-- `transform_data` from `transform.py`: empty guard, per-column
normalization, the `"Unknown Product"` filter, `dropna` over the six
business columns, `drop_duplicates` over the same six columns.  The final
`astype` coercions do not change any value: after `dropna` every `Price`
and `Rating` cell is already a float produced by its normalizer and every
`Colors` cell an int, so they are not modelled.  The `except` clause
cannot fire in the embedding (the `Row` type supplies every column), so
only the empty-input early return remains. -/
def transform_data (rows : List Row) : List Row :=
  if rows = [] then []
  else dedupRows (((rows.map cleanRow).filter notUnknown).filter hasNoNull) []

/-! ## Extraction (`utils/extract.py`) -/

/-- What one catalog URL serves: the product rows that
`scrape_page` extracts from its HTML, and the resolved target of the
"Next" pagination link that `get_next_page_url` finds (or `none`).  The
site is a deterministic map `String → Option PageData`; `none` models a
network/HTTP failure (`requests.exceptions.RequestException`). -/
structure PageData where
  products : List Row
  nextUrl : Option String

/-- `scrape_page` from `extract.py`: performs one HTTP GET of `url` and
returns the extracted product rows; on a request failure it returns the
empty list. -/
def scrape_page (site : String → Option PageData) (url : String) : List Row :=
  match site url with
  | none => []
  | some p => p.products

/-- The `while current_page <= max_pages` loop of `scrape_main`.  `fuel`
is the number of page visits the budget still allows.  Each iteration
performs `session.get(current_url)` itself (one fetch) and then calls
`scrape_page(current_url, session)` (a second fetch of the same URL);
the pair returned is the accumulated rows and the total fetch count.
A fetch failure breaks out after the single failed attempt; an empty
product list breaks without accumulating; a missing "Next" link breaks
after accumulating; otherwise the loop advances to the next URL. -/
def scrapeLoop (site : String → Option PageData) :
    ℕ → String → List Row → ℕ → List Row × ℕ
  | 0, _, acc, fetches => (acc, fetches)
  | fuel + 1, url, acc, fetches =>
    match site url with
    | none => (acc, fetches + 1)
    | some p =>
      if scrape_page site url = [] then (acc, fetches + 2)
      else
        match p.nextUrl with
        | none => (acc ++ scrape_page site url, fetches + 2)
        | some next => scrapeLoop site fuel next (acc ++ scrape_page site url) (fetches + 2)

/-- `scrape_main` from `extract.py`: walk up to `maxPages` pages starting
at `baseUrl`, returning all accumulated rows together with the number of
HTTP fetches performed (the DataFrame conversion is the identity here;
the `return None` branch is unreachable in the pure embedding). -/
def scrape_main (site : String → Option PageData) (baseUrl : String) (maxPages : ℕ) :
    List Row × ℕ :=
  scrapeLoop site maxPages baseUrl [] 0

/-! ## Loading (`utils/load.py`) and the pipeline (`main.py`)

The three writers `save_to_csv` / `save_to_google_sheets` /
`save_to_postgresql` are external collaborators (file system, Sheets API,
database); their boolean outcomes enter the model as parameters
`csvOk`, `sheetsOk`, `pgOk`. -/

/-- The dictionary `load_data` returns: per-destination tri-state status,
`none` meaning the destination was skipped. -/
structure SinkResult where
  csv : Option Bool
  google_sheets : Option Bool
  postgresql : Option Bool
deriving DecidableEq

/-- Python truthiness of an optional string parameter:
`if google_sheet_id:` is false for `None` and for the empty string. -/
def strTruthy : Option String → Bool
  | none => false
  | some s => decide (s ≠ "")

/-- `load_data` from `load.py`.  `df` is `none` for a `None` DataFrame.
An empty or missing table short-circuits to all-`false`.  Otherwise the
CSV writer is always attempted, and each of the other two destinations is
attempted exactly when its connection parameter is truthy, recording the
writer's boolean outcome, else recorded as `None`. -/
def load_data (df : Option (List Row)) (googleSheetId postgresqlConn : Option String)
    (csvOk sheetsOk pgOk : Bool) : SinkResult :=
  match df with
  | none => ⟨some false, some false, some false⟩
  | some rows =>
    if rows = [] then ⟨some false, some false, some false⟩
    else
      ⟨some csvOk,
        if strTruthy googleSheetId then some sheetsOk else none,
        if strTruthy postgresqlConn then some pgOk else none⟩

/-- One status entry's contribution to
`all(status for status in load_results.values() if status is not None)`:
a skipped destination (`none`) does not count. -/
def statusOk : Option Bool → Bool
  | none => true
  | some b => b

/-- `all(...)` over the three entries of a `SinkResult`. -/
def allEnabledOk (r : SinkResult) : Bool :=
  statusOk r.csv && statusOk r.google_sheets && statusOk r.postgresql

/-- `run_etl_pipeline` from `main.py`: fail when extraction returned
`None` or an empty table; fail when transformation returned an empty
table; otherwise load and report `all(...)` over the non-skipped
destination statuses.  `raw` is the table `scrape_main` produced. -/
def run_etl_pipeline (raw : Option (List Row)) (googleSheetId postgresqlConn : Option String)
    (csvOk sheetsOk pgOk : Bool) : Bool :=
  match raw with
  | none => false
  | some rows =>
    if rows = [] then false
    else if transform_data rows = [] then false
    else allEnabledOk (load_data (some (transform_data rows)) googleSheetId postgresqlConn
      csvOk sheetsOk pgOk)

/-! ## Spec-side definitions (for refinement comparison only) -/

/-- The literal `Men`. -/
def menLit : List Char := ['M', 'e', 'n']

/-- The literal `Women`. -/
def womenLit : List Char := ['W', 'o', 'm', 'e', 'n']

/-- The literal `Unisex`. -/
def unisexLit : List Char := ['U', 'n', 'i', 's', 'e', 'x']

/-- Written from the spec's words, not from the code: the CleanRecord
constraints of the data model (`title` non-empty and not
`"Unknown Product"`, `price_idr > 0`, `0 ≤ rating ≤ 5`, `color_count ≥ 1`,
`size` non-empty, `gender ∈ {Men, Women, Unisex}`, no field null).  Claim
C2 asserts every row `transform_data` returns satisfies this. -/
def specCleanRecordOk (r : Row) : Bool :=
  (match r.title with
    | Cell.str t => decide (t ≠ [] ∧ t ≠ unknownLit)
    | _ => false) &&
  (match r.price with
    | Cell.num q => decide (0 < q)
    | _ => false) &&
  (match r.rating with
    | Cell.num q => decide (0 ≤ q ∧ q ≤ 5)
    | _ => false) &&
  (match r.colors with
    | Cell.int n => decide (1 ≤ n)
    | _ => false) &&
  (match r.size with
    | Cell.str s => decide (s ≠ [])
    | _ => false) &&
  (match r.gender with
    | Cell.str g => decide (g = menLit ∨ g = womenLit ∨ g = unisexLit)
    | _ => false)

/-! ## Helper lemmas on the deduplication pass -/

theorem mem_dedupRows {l : List Row} : ∀ {seen : List Key} {r : Row},
    r ∈ dedupRows l seen → r ∈ l ∧ businessKey r ∉ seen := by
  induction l with
  | nil => intro seen r h; simp [dedupRows] at h
  | cons a t ih =>
    intro seen r h
    rw [dedupRows] at h
    by_cases ha : businessKey a ∈ seen
    · rw [if_pos ha] at h
      obtain ⟨h1, h2⟩ := ih h
      exact ⟨List.mem_cons_of_mem _ h1, h2⟩
    · rw [if_neg ha] at h
      rcases List.mem_cons.1 h with rfl | h2
      · exact ⟨List.mem_cons_self _ _, ha⟩
      · obtain ⟨h1, h2⟩ := ih h2
        exact ⟨List.mem_cons_of_mem _ h1, fun hs => h2 (List.mem_cons_of_mem _ hs)⟩

theorem countP_dedupRows_of_mem {k : Key} {l : List Row} : ∀ {seen : List Key}, k ∈ seen →
    (dedupRows l seen).countP (fun r => decide (businessKey r = k)) = 0 := by
  induction l with
  | nil => intro seen _; simp [dedupRows]
  | cons a t ih =>
    intro seen hk
    rw [dedupRows]
    by_cases ha : businessKey a ∈ seen
    · rw [if_pos ha]; exact ih hk
    · rw [if_neg ha, List.countP_cons, ih (List.mem_cons_of_mem _ hk)]
      have hne : businessKey a ≠ k := fun h => ha (h ▸ hk)
      simp [hne]

theorem countP_dedupRows_eq_one {k : Key} {l : List Row} : ∀ {seen : List Key}, k ∉ seen →
    (∃ r ∈ l, businessKey r = k) →
    (dedupRows l seen).countP (fun r => decide (businessKey r = k)) = 1 := by
  induction l with
  | nil => intro seen _ h; simp at h
  | cons a t ih =>
    intro seen hk hex
    rw [dedupRows]
    by_cases ha : businessKey a ∈ seen
    · rw [if_pos ha]
      obtain ⟨r, hr, hrk⟩ := hex
      rcases List.mem_cons.1 hr with rfl | hr2
      · exact absurd (hrk ▸ ha) hk
      · exact ih hk ⟨r, hr2, hrk⟩
    · rw [if_neg ha, List.countP_cons]
      by_cases hak : businessKey a = k
      · rw [@countP_dedupRows_of_mem k t _ (hak ▸ List.mem_cons_self _ _)]
        simp [hak]
      · obtain ⟨r, hr, hrk⟩ := hex
        rcases List.mem_cons.1 hr with rfl | hr2
        · exact absurd hrk hak
        · have hk2 : k ∉ businessKey a :: seen := by
            intro h
            rcases List.mem_cons.1 h with h' | h'
            · exact hak h'.symm
            · exact hk h'
          rw [ih hk2 ⟨r, hr2, hrk⟩]
          simp [hak]

theorem find?_dedupRows {l : List Row} : ∀ {seen : List Key} {r : Row},
    r ∈ dedupRows l seen →
    l.find? (fun x => decide (businessKey x = businessKey r)) = some r := by
  induction l with
  | nil => intro seen r h; simp [dedupRows] at h
  | cons a t ih =>
    intro seen r h
    rw [dedupRows] at h
    by_cases ha : businessKey a ∈ seen
    · rw [if_pos ha] at h
      have hr := (mem_dedupRows h).2
      have hne : businessKey a ≠ businessKey r := fun he => hr (he ▸ ha)
      rw [List.find?_cons_of_neg _ (by simp [hne]), ih h]
    · rw [if_neg ha] at h
      rcases List.mem_cons.1 h with rfl | h2
      · exact List.find?_cons_of_pos _ (by simp)
      · have hr := (mem_dedupRows h2).2
        have hne : businessKey a ≠ businessKey r := by
          intro he
          exact hr (he ▸ List.mem_cons_self _ _)
        rw [List.find?_cons_of_neg _ (by simp [hne]), ih h2]

theorem find?_filter_of_imp {p q : Row → Bool} {l : List Row}
    (h : ∀ x, p x = true → q x = true) : (l.filter q).find? p = l.find? p := by
  induction l with
  | nil => rfl
  | cons a t ih =>
    by_cases hq : q a = true
    · rw [List.filter_cons_of_pos hq]
      by_cases hp : p a = true
      · rw [List.find?_cons_of_pos _ hp, List.find?_cons_of_pos _ hp]
      · rw [List.find?_cons_of_neg _ (by simp [hp]), List.find?_cons_of_neg _ (by simp [hp]), ih]
    · rw [List.filter_cons_of_neg (by simp [hq]), ih,
        List.find?_cons_of_neg _ (fun hc => hq (h a hc))]

/-! ## Shape of the transformed table -/

theorem optNum_cases (o : Option ℚ) (h : optNum o ≠ Cell.null) : ∃ q, optNum o = Cell.num q := by
  cases o with
  | none => exact absurd rfl h
  | some q => exact ⟨q, rfl⟩

theorem optInt_cases (o : Option ℤ) (h : optInt o ≠ Cell.null) : ∃ n, optInt o = Cell.int n := by
  cases o with
  | none => exact absurd rfl h
  | some n => exact ⟨n, rfl⟩

theorem optStr_cases (o : Option (List Char)) (h : optStr o ≠ Cell.null) :
    ∃ s, optStr o = Cell.str s := by
  cases o with
  | none => exact absurd rfl h
  | some s => exact ⟨s, rfl⟩

/-- Membership in the transformed table comes from a cleaned input row that
passed both filters. -/
theorem mem_transform {rows : List Row} {r : Row} (h : r ∈ transform_data rows) :
    r ∈ rows.map cleanRow ∧ notUnknown r = true ∧ hasNoNull r = true := by
  unfold transform_data at h
  split at h
  · simp at h
  · have h1 := (mem_dedupRows h).1
    rw [List.mem_filter] at h1
    obtain ⟨h2, hnn⟩ := h1
    rw [List.mem_filter] at h2
    exact ⟨h2.1, h2.2, hnn⟩

/-- Every row of the transformed table is fully typed: no null business
cell, the title is not the sentinel, price and rating are floats, the
color count is an int, size and gender are strings. -/
theorem transform_row_shape {rows : List Row} {r : Row} (h : r ∈ transform_data rows) :
    (r.title ≠ Cell.null ∧ r.title ≠ Cell.str unknownLit) ∧
    (∃ q, r.price = Cell.num q) ∧ (∃ q, r.rating = Cell.num q) ∧
    (∃ n, r.colors = Cell.int n) ∧
    (∃ s, r.size = Cell.str s) ∧ (∃ g, r.gender = Cell.str g) := by
  obtain ⟨hm, hu, hn⟩ := mem_transform h
  rw [List.mem_map] at hm
  obtain ⟨x, -, rfl⟩ := hm
  rw [notUnknown, decide_eq_true_iff] at hu
  rw [hasNoNull, decide_eq_true_iff] at hn
  obtain ⟨ht, hp, hr, hc, hs, hg⟩ := hn
  exact ⟨⟨ht, hu⟩, optNum_cases _ hp, optNum_cases _ hr, optInt_cases _ hc,
    optStr_cases _ hs, optStr_cases _ hg⟩

/-! ## Lemmas on the numeral scanner -/

/-- A greedy `\d+` consumes exactly a maximal digit run: if `xs` is all
digits and `rest` does not start with one, the run splits there. -/
theorem digitRun_append {xs rest : List Char} (hx : ∀ c ∈ xs, c.isDigit = true)
    (hr : ∀ c ∈ rest.head?, c.isDigit = false) : digitRun (xs ++ rest) = (xs, rest) := by
  induction xs with
  | nil =>
    rw [List.nil_append]
    cases rest with
    | nil => rfl
    | cons c cs =>
      have hc : c.isDigit = false := hr c rfl
      rw [digitRun, if_neg (by simp [hc])]
  | cons a as ih =>
    have ha : a.isDigit = true := hx a (List.mem_cons_self _ _)
    rw [List.cons_append, digitRun, if_pos ha,
      ih (fun c hc => hx c (List.mem_cons_of_mem _ hc))]

/-- The price regex on a numeral with a fractional part, starting at the
first digit: the `\d+\.\d+` alternative fires. -/
theorem priceScan_decimal {d1 d2 : List Char} (h1 : d1 ≠ []) (hx1 : ∀ c ∈ d1, c.isDigit = true)
    (h2 : d2 ≠ []) (hx2 : ∀ c ∈ d2, c.isDigit = true) :
    priceScan (d1 ++ '.' :: d2) = some (numLit d1 d2) := by
  obtain ⟨a, as, rfl⟩ := List.exists_cons_of_ne_nil h1
  have ha : a.isDigit = true := hx1 a (List.mem_cons_self _ _)
  have hd : digitRun ((a :: as) ++ '.' :: d2) = (a :: as, '.' :: d2) :=
    digitRun_append hx1 (by intro c hc; cases hc; decide)
  rw [List.cons_append, priceScan, if_pos ha, ← List.cons_append, hd]
  obtain ⟨b, bs, rfl⟩ := List.exists_cons_of_ne_nil h2
  have hd2 : digitRun (b :: bs) = (b :: bs, []) := by
    have := @digitRun_append (b :: bs) [] hx2 (by intro c hc; cases hc)
    simpa using this
  show some (if (digitRun (b :: bs)).1 = [] then _ else numLit (a :: as) (digitRun (b :: bs)).1) = _
  rw [hd2]
  simp

/-- The price regex on a plain integer numeral starting at the first
digit: the `\d+` alternative fires and takes the whole run. -/
theorem priceScan_plain {d1 : List Char} (h1 : d1 ≠ []) (hx1 : ∀ c ∈ d1, c.isDigit = true) :
    priceScan d1 = some ((digitsVal d1 : ℚ)) := by
  obtain ⟨a, as, rfl⟩ := List.exists_cons_of_ne_nil h1
  have ha : a.isDigit = true := hx1 a (List.mem_cons_self _ _)
  have hd : digitRun ((a :: as) ++ []) = (a :: as, []) :=
    digitRun_append hx1 (by intro c hc; cases hc)
  rw [List.append_nil] at hd
  rw [priceScan, if_pos ha, hd]
  rfl

/-! ## Lemmas on the label matcher -/

theorem leadsWith_refl_append (l t : List Char) : leadsWith l (l ++ t) = true := by
  induction l with
  | nil => rfl
  | cons a as ih => simp [leadsWith, ih]

/-- The label matcher at an exact leading occurrence returns the suffix. -/
theorem findLabel_leading {label t : List Char} (h : label ≠ []) :
    findLabel label (label ++ t) = some t := by
  obtain ⟨a, as, rfl⟩ := List.exists_cons_of_ne_nil h
  rw [List.cons_append, findLabel, ← List.cons_append,
    if_pos (leadsWith_refl_append _ _), List.drop_left]

/-- Does `needle` occur anywhere in the haystack (as a contiguous run)? -/
def containsL (needle : List Char) : List Char → Bool
  | [] => needle.isEmpty
  | c :: cs => leadsWith needle (c :: cs) || containsL needle cs

/-- No occurrence anywhere means the label matcher fails. -/
theorem findLabel_eq_none {needle s : List Char} (h : containsL needle s = false) :
    findLabel needle s = none := by
  induction s with
  | nil => rfl
  | cons c cs ih =>
    rw [containsL, Bool.or_eq_false_iff] at h
    rw [findLabel, if_neg (by simp [h.1]), ih h.2]

/-- The label matcher anchors at the *first* occurrence: decompose the
haystack as `a ++ (label ++ t)` where no occurrence of the label starts
inside the prefix `a`; then the matcher returns the suffix `t` after that
occurrence. -/
theorem findLabel_first {label : List Char} (hl : label ≠ []) :
    ∀ a t : List Char,
      (∀ i, i < a.length → leadsWith label ((a ++ (label ++ t)).drop i) = false) →
      findLabel label (a ++ (label ++ t)) = some t := by
  intro a
  induction a with
  | nil =>
    intro t _
    rw [List.nil_append]
    exact findLabel_leading hl
  | cons c a' ih =>
    intro t h
    have h0 : leadsWith label (c :: (a' ++ (label ++ t))) = false := by
      have h' := h 0 (by simp)
      rw [List.cons_append, List.drop_zero] at h'
      exact h'
    rw [List.cons_append, findLabel, if_neg (by simp [h0])]
    apply ih
    intro i hi
    have h' := h (i + 1) (by simpa using Nat.succ_lt_succ hi)
    rw [List.cons_append, List.drop_succ_cons] at h'
    exact h'

/-! ## Concrete rows used in witnesses and counterexamples -/

/-- A well-formed raw row, as the unit test of `test_transform.py` uses. -/
def rowShirt : Row :=
  ⟨Cell.str "T-shirt 1".toList, Cell.str "$10.50".toList,
    Cell.str "Rating: 4.2 / 5".toList, Cell.str "2 Colors".toList,
    Cell.str "Size: S".toList, Cell.str "Gender: Men".toList, "t1"⟩

/-- What `transform_data` makes of `rowShirt`. -/
def rowShirtOut : Row :=
  ⟨Cell.str "T-shirt 1".toList, Cell.num 168000, Cell.num (21 / 5), Cell.int 2,
    Cell.str ['S'], Cell.str "Men".toList, "t1"⟩

/-- `rowShirt` scraped again later: same six business fields, new
timestamp. -/
def rowShirtDup : Row := { rowShirt with timestamp := "t2" }

/-- What `cleanRow` makes of `rowShirtDup`: same as `rowShirtOut` up to
the timestamp. -/
def rowShirtOut2 : Row := { rowShirtOut with timestamp := "t2" }

/-- A raw row whose price is the `"Price Unavailable"` sentinel, so its
normalized price is null and the row is dropped. -/
def rowNoPrice : Row :=
  ⟨Cell.str ['A'], Cell.str priceUnavailableLit,
    Cell.str "Rating: 4.0 / 5".toList, Cell.str "2 Colors".toList,
    Cell.str "Size: M".toList, Cell.str "Gender: Men".toList, "t1"⟩

/-- `rowNoPrice` scraped again later with a different timestamp. -/
def rowNoPrice2 : Row := { rowNoPrice with timestamp := "t2" }

/-- A raw row that survives every filter of `transform_data` yet violates
every range constraint of the spec's CleanRecord: empty title, price `$0`,
rating above 5, zero colors, whitespace-only size, gender outside the
enumeration. -/
def rowOutOfRange : Row :=
  ⟨Cell.str [], Cell.str "$0".toList,
    Cell.str "Rating: 9.9 / 5".toList, Cell.str "0 Colors".toList,
    Cell.str "Size:  ".toList, Cell.str "Gender: Other".toList, "t0"⟩

/-- What `transform_data` makes of `rowOutOfRange`: all six business
fields non-null and typed, none of the spec's range constraints holding. -/
def rowOutOfRangeOut : Row :=
  ⟨Cell.str [], Cell.num 0, Cell.num (99 / 10), Cell.int 0,
    Cell.str [], Cell.str "Other".toList, "t0"⟩

-- Sanity checks against the unit tests of test_transform.py.
example : clean_price (Cell.str ['$', '1', '0', '0', '.', '0', '0']) = some 1600000 := by
  with_unfolding_all rfl
example : clean_price (Cell.str ['$', '5', '0']) = some 800000 := by with_unfolding_all rfl
example : clean_price (Cell.str priceUnavailableLit) = none := by decide
example : clean_price (Cell.str unavailableLit) = none := by decide
example : clean_price Cell.null = none := by decide
example : clean_price (Cell.num 24) = none := by decide
example : clean_rating (Cell.str "Rating: 4.8 / 5".toList) = some (24/5) := by
  with_unfolding_all rfl
example : clean_rating (Cell.str "Rating: 3 / 5".toList) = some 3 := by with_unfolding_all rfl
example : clean_rating (Cell.str "Rating: Invalid Rating / 5".toList) = none := by decide
example : clean_rating (Cell.str "Rating: Not Rated".toList) = none := by decide
example : clean_colors (Cell.str "3 Colors".toList) = some 3 := by decide
example : clean_colors (Cell.str "10 Colors".toList) = some 10 := by decide
example : clean_colors (Cell.str "Colors".toList) = none := by decide
example : clean_size (Cell.str "Size: M".toList) = some ['M'] := by decide
example : clean_size (Cell.str "Size".toList) = none := by decide
example : clean_gender (Cell.str "Gender: Men".toList) = some "Men".toList := by decide
example : clean_gender (Cell.str "Gender".toList) = none := by decide

/-! ## Claims -/

/-- C1: for every input string of the exact shape `$<N>.<M>` or `$<N>`
(with nonempty digit runs `N`, `M`), `clean_price` returns the numeral's
value multiplied by 16000; for the `"Price Unavailable"` literal and for
missing input it returns `none`. -/
theorem C1_price_normalizer :
    (∀ d1 d2 : List Char, d1 ≠ [] → d2 ≠ [] →
      (∀ c ∈ d1, c.isDigit = true) → (∀ c ∈ d2, c.isDigit = true) →
      clean_price (Cell.str ('$' :: (d1 ++ '.' :: d2))) = some (numLit d1 d2 * 16000)) ∧
    (∀ d1 : List Char, d1 ≠ [] → (∀ c ∈ d1, c.isDigit = true) →
      clean_price (Cell.str ('$' :: d1)) = some ((digitsVal d1 : ℚ) * 16000)) ∧
    clean_price (Cell.str priceUnavailableLit) = none ∧
    clean_price Cell.null = none := by
  refine ⟨?_, ?_, by decide, rfl⟩
  · intro d1 d2 h1 h2 hx1 hx2
    have hne : ¬('$' :: (d1 ++ '.' :: d2) = priceUnavailableLit ∨
        '$' :: (d1 ++ '.' :: d2) = unavailableLit) := by
      rintro (h | h) <;>
        { have hh := congrArg List.head? h
          simp only [priceUnavailableLit, unavailableLit, List.head?_cons] at hh
          exact absurd hh (by decide) }
    simp only [clean_price]
    rw [if_neg hne, priceScan, if_neg (by decide), priceScan_decimal h1 hx1 h2 hx2]
    rfl
  · intro d1 h1 hx1
    have hne : ¬('$' :: d1 = priceUnavailableLit ∨ '$' :: d1 = unavailableLit) := by
      rintro (h | h) <;>
        { have hh := congrArg List.head? h
          simp only [priceUnavailableLit, unavailableLit, List.head?_cons] at hh
          exact absurd hh (by decide) }
    simp only [clean_price]
    rw [if_neg hne, priceScan, if_neg (by decide), priceScan_plain h1 hx1]
    rfl

/-- Witness for C1 at the spec's own examples: `"$100.00"` maps to
`1600000` and `"$50"` to `800000`. -/
theorem C1_price_normalizer_witness :
    ((['1', '0', '0'] : List Char) ≠ [] ∧
      clean_price (Cell.str ('$' :: (['1', '0', '0'] ++ '.' :: ['0', '0']))) = some 1600000) ∧
    clean_price (Cell.str ('$' :: ['5', '0'])) = some 800000 := by
  refine ⟨⟨by decide, ?_⟩, ?_⟩
  · rw [C1_price_normalizer.1 ['1', '0', '0'] ['0', '0']
      (by decide) (by decide) (by decide) (by decide)]
    norm_num [numLit, show digitsVal ['1', '0', '0'] = 100 from by decide,
      show digitsVal ['0', '0'] = 0 from by decide]
  · rw [C1_price_normalizer.2.1 ['5', '0'] (by decide) (by decide)]
    norm_num [show digitsVal ['5', '0'] = 50 from by decide]

/-- C6 (amended): `clean_size`/`clean_gender` return `none` on missing
input and when the label occurs nowhere in the text; otherwise, writing
the input as `a ++ (label ++ t)` with the *first* occurrence of the
label after the prefix `a` (no occurrence starts inside `a` — `a` may be
nonempty, so a label in the middle of the text is found too), they drop
everything up to and including that occurrence and return the remainder
`t` stripped of surrounding whitespace, or `none` when nothing follows
the label (`t = []`). -/
theorem C6_label_normalizers :
    (∀ a t : List Char,
      (∀ i, i < a.length → leadsWith sizeLit ((a ++ (sizeLit ++ t)).drop i) = false) →
      clean_size (Cell.str (a ++ (sizeLit ++ t))) =
        if t = [] then none else some (pyStrip t)) ∧
    (∀ a t : List Char,
      (∀ i, i < a.length → leadsWith genderLit ((a ++ (genderLit ++ t)).drop i) = false) →
      clean_gender (Cell.str (a ++ (genderLit ++ t))) =
        if t = [] then none else some (pyStrip t)) ∧
    clean_size Cell.null = none ∧ clean_gender Cell.null = none ∧
    (∀ s : List Char, containsL sizeLit s = false → clean_size (Cell.str s) = none) ∧
    (∀ s : List Char, containsL genderLit s = false → clean_gender (Cell.str s) = none) := by
  refine ⟨?_, ?_, rfl, rfl, ?_, ?_⟩
  · intro a t h
    show labelStrip sizeLit (a ++ (sizeLit ++ t)) = _
    rw [labelStrip, findLabel_first (by decide) a t h]
  · intro a t h
    show labelStrip genderLit (a ++ (genderLit ++ t)) = _
    rw [labelStrip, findLabel_first (by decide) a t h]
  · intro s hs
    show labelStrip sizeLit s = _
    rw [labelStrip, findLabel_eq_none hs]
  · intro s hs
    show labelStrip genderLit s = _
    rw [labelStrip, findLabel_eq_none hs]

/-- Witness for C6, discharging each hypothesis at concrete inputs:
a leading label (`"Size: XL"` maps to `"XL"`, the spec's example, and
`"Gender: Unisex"` to `"Unisex"`), a mid-string label
(`"foo Size: M"` maps to `"M"`), a label with nothing after it
(`"Size:"` maps to `none`), and a label-free input (`"Size"` maps to
`none`). -/
theorem C6_label_normalizers_witness :
    ((∀ i, i < ([] : List Char).length →
        leadsWith sizeLit ((([] : List Char) ++ (sizeLit ++ [' ', 'X', 'L'])).drop i) = false) ∧
      clean_size (Cell.str (([] : List Char) ++ (sizeLit ++ [' ', 'X', 'L']))) =
        if ([' ', 'X', 'L'] : List Char) = [] then none else some (pyStrip [' ', 'X', 'L'])) ∧
    clean_gender (Cell.str (([] : List Char) ++ (genderLit ++ " Unisex".toList))) =
      (if (" Unisex".toList : List Char) = [] then none else some (pyStrip " Unisex".toList)) ∧
    ((∀ i, i < ("foo ".toList : List Char).length →
        leadsWith sizeLit (("foo ".toList ++ (sizeLit ++ [' ', 'M'])).drop i) = false) ∧
      clean_size (Cell.str ("foo ".toList ++ (sizeLit ++ [' ', 'M']))) =
        if ([' ', 'M'] : List Char) = [] then none else some (pyStrip [' ', 'M'])) ∧
    clean_size (Cell.str (([] : List Char) ++ (sizeLit ++ []))) =
      (if ([] : List Char) = [] then none else some (pyStrip [])) ∧
    (containsL sizeLit "Size".toList = false ∧ clean_size (Cell.str "Size".toList) = none) :=
  ⟨⟨by decide, C6_label_normalizers.1 [] [' ', 'X', 'L'] (by decide)⟩,
    C6_label_normalizers.2.1 [] " Unisex".toList (by decide),
    ⟨by decide, C6_label_normalizers.1 "foo ".toList [' ', 'M'] (by decide)⟩,
    C6_label_normalizers.1 [] [] (by decide),
    ⟨by decide, C6_label_normalizers.2.2.2.2.1 "Size".toList (by decide)⟩⟩

/-- Counterexample to C6 as stated: the input `"XX Size: M"` does not
begin with the `Size:` label, so the claim demands `none`, yet
`clean_size` finds the label in the middle (`re.search`, not `re.match`)
and returns `"M"`. -/
theorem C6_label_normalizers_cex :
    clean_size (Cell.str "XX Size: M".toList) = some ['M'] := by decide

/-- C8: on a non-empty table, `load_data` always attempts the CSV writer
and records its outcome, attempts each of the other two destinations
exactly when its connection parameter is truthy (recording that writer's
boolean outcome) and records `none` for it otherwise.  The result is a
function of each destination's own outcome only, so one destination's
failure never prevents attempting the others. -/
theorem C8_load_dispatch (rows : List Row) (h : rows ≠ []) (sid pg : Option String)
    (csvOk sheetsOk pgOk : Bool) :
    load_data (some rows) sid pg csvOk sheetsOk pgOk =
      ⟨some csvOk, if strTruthy sid then some sheetsOk else none,
        if strTruthy pg then some pgOk else none⟩ := by
  show (if rows = [] then _ else _) = _
  rw [if_neg h]

/-- Witness for C8: with only the file destination configured and a
successful file write, the result is file `true`, spreadsheet skipped,
database skipped. -/
theorem C8_load_dispatch_witness :
    ([rowShirt] : List Row) ≠ [] ∧
    load_data (some [rowShirt]) none none true false false =
      ⟨some true, none, none⟩ :=
  ⟨by decide, C8_load_dispatch [rowShirt] (by decide) none none true false false⟩

/-- C9: on a `None` or empty table, `load_data` short-circuits — the
result does not depend on any writer outcome or connection parameter, so
no writer is attempted — and all three destinations are marked `false`,
including the ones whose connection parameter was not provided. -/
theorem C9_load_empty_short_circuit (sid pg : Option String) (c s p : Bool) :
    load_data none sid pg c s p = ⟨some false, some false, some false⟩ ∧
    load_data (some []) sid pg c s p = ⟨some false, some false, some false⟩ :=
  ⟨rfl, rfl⟩

/-- Rows with the same business key get the same verdict from the
null-dropping filter: the filter only inspects the six key fields. -/
theorem hasNoNull_of_key {x y : Row} (h : businessKey x = businessKey y) :
    hasNoNull x = hasNoNull y := by
  simp only [businessKey, Key.mk.injEq] at h
  obtain ⟨h1, h2, h3, h4, h5, h6⟩ := h
  simp only [hasNoNull, h1, h2, h3, h4, h5, h6]

/-- Rows with the same business key get the same verdict from the
`"Unknown Product"` filter: the filter only inspects the title field. -/
theorem notUnknown_of_key {x y : Row} (h : businessKey x = businessKey y) :
    notUnknown x = notUnknown y := by
  simp only [businessKey, Key.mk.injEq] at h
  simp only [notUnknown, h.1]

/-- C2 (amended): every row `transform_data` returns has its title
non-null and different from `"Unknown Product"`, and all other business
fields non-null and typed — price and rating floats, the color count an
int, size and gender strings.  (The spec's range constraints — price
strictly positive, rating at most 5, at least one color, non-empty title
and size, gender within the enumeration — are not enforced by the code;
see the counterexample.) -/
theorem C2_clean_table_shape (rows : List Row) (r : Row) (h : r ∈ transform_data rows) :
    (r.title ≠ Cell.null ∧ r.title ≠ Cell.str unknownLit) ∧
    (∃ q, r.price = Cell.num q) ∧ (∃ q, r.rating = Cell.num q) ∧
    (∃ n, r.colors = Cell.int n) ∧
    (∃ s, r.size = Cell.str s) ∧ (∃ g, r.gender = Cell.str g) :=
  transform_row_shape h

/-- Witness for C2: a fully valid concrete row is transformed and kept,
and the amended shape holds of it. -/
theorem C2_clean_table_shape_witness :
    rowShirtOut ∈ transform_data [rowShirt] ∧ (∃ q, rowShirtOut.price = Cell.num q) := by
  have hm : rowShirtOut ∈ transform_data [rowShirt] := by
    rw [show transform_data [rowShirt] = [rowShirtOut] from by with_unfolding_all rfl]
    exact List.mem_singleton_self _
  exact ⟨hm, (C2_clean_table_shape [rowShirt] rowShirtOut hm).2.1⟩

/-- Counterexample to C2 as stated: `rowOutOfRange` survives every filter
of `transform_data`, yet its output row violates all of the claimed
CleanRecord range constraints — empty title, price `0` (not `> 0`),
rating `9.9` (not `≤ 5`), `0` colors (not `≥ 1`), empty size, gender
`"Other"` (not in `{Men, Women, Unisex}`). -/
theorem C2_clean_table_shape_cex :
    transform_data [rowOutOfRange] = [rowOutOfRangeOut] ∧
    specCleanRecordOk rowOutOfRangeOut = false ∧
    ¬(0 : ℚ) < 0 ∧ ¬(99 / 10 : ℚ) ≤ 5 ∧ ¬(1 : ℤ) ≤ 0 := by
  refine ⟨by with_unfolding_all rfl, by with_unfolding_all rfl, by norm_num, by norm_num,
    by norm_num⟩

/-- C3 (amended): `transform_data` is not idempotent; applying it to its
own output always yields the *empty* table, because every surviving row
carries already-typed float/int cells which the normalizers (whose
`re.search` raises `TypeError` on non-strings, caught to `None`) turn
into nulls, so the `dropna` stage discards every row.  It agrees with
its output only when that output is already empty. -/
theorem C3_transform_not_idempotent (rows : List Row) :
    transform_data (transform_data rows) = [] := by
  cases h : transform_data rows with
  | nil => rfl
  | cons a t =>
    unfold transform_data
    rw [if_neg (List.cons_ne_nil a t)]
    have hnil : (((a :: t).map cleanRow).filter notUnknown).filter hasNoNull = [] := by
      apply List.filter_eq_nil_iff.2
      intro y hy
      rw [List.mem_filter] at hy
      obtain ⟨hy1, -⟩ := hy
      rw [List.mem_map] at hy1
      obtain ⟨x, hx, rfl⟩ := hy1
      have hx' : x ∈ transform_data rows := by rw [h]; exact hx
      obtain ⟨-, ⟨q, hq⟩, -⟩ := transform_row_shape hx'
      simp [hasNoNull, cleanRow, hq, clean_price, optNum]
    rw [hnil]
    rfl

/-- Counterexample to C3 as stated: the non-empty table `[rowShirt]`
transforms to one valid row, but transforming that output again drops the
row, so the second application does not yield the same table. -/
theorem C3_transform_not_idempotent_cex :
    transform_data (transform_data [rowShirt]) ≠ transform_data [rowShirt] := by
  have h1 : transform_data (transform_data [rowShirt]) = [] := by with_unfolding_all rfl
  have h2 : transform_data [rowShirt] = [rowShirtOut] := by with_unfolding_all rfl
  rw [h1, h2]
  simp

/-- C5 (amended): for two input rows that agree on all six raw business
fields but differ in timestamp, *provided* the shared field values
survive normalization (the cleaned row passes the `"Unknown Product"`
filter and has no null business cell), the transformed table contains
exactly one row with the cleaned business key.  (Without that proviso
both copies are dropped and the table contains none; see the
counterexample.) -/
theorem C5_dedup_exactly_one {rows : List Row} {r1 r2 : Row}
    (h1 : r1 ∈ rows) (_h2 : r2 ∈ rows) (_hkey : businessKey r1 = businessKey r2)
    (_hts : r1.timestamp ≠ r2.timestamp)
    (hu : notUnknown (cleanRow r1) = true) (hn : hasNoNull (cleanRow r1) = true) :
    (transform_data rows).countP
      (fun r => decide (businessKey r = businessKey (cleanRow r1))) = 1 := by
  have hne : rows ≠ [] := by
    intro hnil
    rw [hnil] at h1
    exact List.not_mem_nil r1 h1
  unfold transform_data
  rw [if_neg hne]
  apply countP_dedupRows_eq_one (List.not_mem_nil _)
  refine ⟨cleanRow r1, ?_, rfl⟩
  rw [List.mem_filter]
  refine ⟨?_, hn⟩
  rw [List.mem_filter]
  exact ⟨List.mem_map_of_mem _ h1, hu⟩

/-- Witness for C5: two copies of a valid listing scraped at different
times collapse to exactly one output row with their cleaned key. -/
theorem C5_dedup_exactly_one_witness :
    rowShirt ∈ [rowShirt, rowShirtDup] ∧ rowShirtDup ∈ [rowShirt, rowShirtDup] ∧
    businessKey rowShirt = businessKey rowShirtDup ∧
    rowShirt.timestamp ≠ rowShirtDup.timestamp ∧
    (transform_data [rowShirt, rowShirtDup]).countP
      (fun r => decide (businessKey r = businessKey (cleanRow rowShirt))) = 1 := by
  refine ⟨List.mem_cons_self _ _, List.mem_cons_of_mem _ (List.mem_cons_self _ _), rfl,
    by decide, ?_⟩
  exact C5_dedup_exactly_one (List.mem_cons_self _ _)
    (List.mem_cons_of_mem _ (List.mem_cons_self _ _)) rfl (by decide) (by decide) (by decide)

/-- Counterexample to C5 as stated: two raw rows agreeing on all six
business fields with different timestamps whose shared price is the
`"Price Unavailable"` sentinel; both are dropped by the mandatory-field
filter, so the output contains zero rows — not exactly one. -/
theorem C5_dedup_exactly_one_cex :
    businessKey rowNoPrice = businessKey rowNoPrice2 ∧
    rowNoPrice.timestamp ≠ rowNoPrice2.timestamp ∧
    transform_data [rowNoPrice, rowNoPrice2] = [] := by
  exact ⟨rfl, by decide, by with_unfolding_all rfl⟩

/-- C10: when several input rows share one cleaned business key, the
surviving output row is the *first* of them in input (scrape) order:
any row of the transformed table equals the first cleaned input row
bearing its key (`find?` returns the leftmost match).  Since `cleanRow`
leaves the timestamp untouched, the survivor's `scraped_at` is the first
occurrence's. -/
theorem C10_dedup_keeps_first {rows : List Row} {r : Row} (h : r ∈ transform_data rows) :
    (rows.map cleanRow).find? (fun x => decide (businessKey x = businessKey r)) = some r := by
  obtain ⟨-, hu, hn⟩ := mem_transform h
  have h' : r ∈ dedupRows (((rows.map cleanRow).filter notUnknown).filter hasNoNull) [] := by
    unfold transform_data at h
    split at h
    · simp at h
    · exact h
  have hfind := find?_dedupRows h'
  rw [find?_filter_of_imp, find?_filter_of_imp] at hfind
  · exact hfind
  · intro x hx
    rw [decide_eq_true_iff] at hx
    rw [notUnknown_of_key hx]
    exact hu
  · intro x hx
    rw [decide_eq_true_iff] at hx
    rw [hasNoNull_of_key hx]
    exact hn

/-- Witness for C10: on a table holding the same listing twice with
different timestamps, the surviving row is the first cleaned row with its
key — the one carrying the earlier scrape's timestamp. -/
theorem C10_dedup_keeps_first_witness :
    rowShirtOut ∈ transform_data [rowShirt, rowShirtDup] ∧
    ([rowShirt, rowShirtDup].map cleanRow).find?
      (fun x => decide (businessKey x = businessKey rowShirtOut)) = some rowShirtOut := by
  have hc1 : cleanRow rowShirt = rowShirtOut := by with_unfolding_all rfl
  have hc2 : cleanRow rowShirtDup = rowShirtOut2 := by with_unfolding_all rfl
  have he : transform_data [rowShirt, rowShirtDup] = [rowShirtOut] := by
    unfold transform_data
    rw [if_neg (List.cons_ne_nil _ _), List.map_cons, List.map_cons, List.map_nil, hc1, hc2]
    rw [show (List.filter hasNoNull (List.filter notUnknown [rowShirtOut, rowShirtOut2])) =
      [rowShirtOut, rowShirtOut2] from by with_unfolding_all rfl]
    rw [dedupRows, if_neg (List.not_mem_nil _), dedupRows,
      if_pos (show businessKey rowShirtOut2 ∈ [businessKey rowShirtOut] from
        List.mem_singleton.mpr rfl), dedupRows]
  have hm : rowShirtOut ∈ transform_data [rowShirt, rowShirtDup] := by
    rw [he]
    exact List.mem_singleton_self _
  exact ⟨hm, C10_dedup_keeps_first hm⟩

/-- The demo site for C4: the base URL serves one product and a "Next"
link, every other URL fails. -/
def demoSite : String → Option PageData :=
  fun u => if u = "base" then some ⟨[rowShirt], some "page2"⟩ else none

/-- C4 (amended): with `max_pages = 1` and a reachable catalog page,
`scrape_main` performs exactly *two* HTTP fetches — the loop body issues
`session.get(current_url)` itself and then `scrape_page` issues a second
GET of the same URL — regardless of the page's products or of whether a
"Next" link is present. -/
theorem C4_single_page_two_fetches (site : String → Option PageData) (base : String)
    (p : PageData) (h : site base = some p) : (scrape_main site base 1).2 = 2 := by
  unfold scrape_main
  unfold scrapeLoop
  simp only [h]
  by_cases hp : scrape_page site base = []
  · rw [if_pos hp]
  · rw [if_neg hp]
    cases hn : p.nextUrl with
    | none => rfl
    | some u => rfl

/-- Witness for C4 at the demo site, whose base page does carry a "Next"
link. -/
theorem C4_single_page_two_fetches_witness :
    demoSite "base" = some ⟨[rowShirt], some "page2"⟩ ∧
    (scrape_main demoSite "base" 1).2 = 2 :=
  ⟨rfl, C4_single_page_two_fetches demoSite "base" ⟨[rowShirt], some "page2"⟩ rfl⟩

/-- Counterexample to C4 as stated: on the demo site, a Walker configured
with `max_pages = 1` does not perform exactly one fetch (it performs
two). -/
theorem C4_single_page_two_fetches_cex : (scrape_main demoSite "base" 1).2 ≠ 1 := by
  intro h
  rw [C4_single_page_two_fetches demoSite "base" ⟨[rowShirt], some "page2"⟩ rfl] at h
  exact absurd h (by decide)

/-- C7: the pipeline reports success exactly when extraction produced a
non-empty table, transformation produced a non-empty table, the
always-attempted CSV write succeeded, and each of the two optional
destinations succeeded whenever its connection parameter was provided
(truthy); destinations left unconfigured (recorded as `none`) do not
count against success. -/
theorem C7_pipeline_success_iff (raw : Option (List Row)) (sid pg : Option String)
    (c s p : Bool) :
    run_etl_pipeline raw sid pg c s p = true ↔
      (∃ rows, raw = some rows ∧ rows ≠ [] ∧ transform_data rows ≠ []) ∧
      c = true ∧ (strTruthy sid = true → s = true) ∧ (strTruthy pg = true → p = true) := by
  cases raw with
  | none => simp [run_etl_pipeline]
  | some rows =>
    by_cases h1 : rows = []
    · simp [run_etl_pipeline, h1]
    · by_cases h2 : transform_data rows = []
      · simp [run_etl_pipeline, h1, h2]
      · simp only [run_etl_pipeline, if_neg h1, if_neg h2, load_data, allEnabledOk]
        by_cases hs : strTruthy sid = true <;> by_cases hp : strTruthy pg = true <;>
          simp [hs, hp, h1, h2, statusOk, Bool.and_eq_true, and_assoc]
